import Mathlib

/-!
Verification of training-support utilities of a brain-MR segmentation
pipeline (`src/models/utils.py`, `src/data/utils.py`), shallowly embedded:
Python floats become `ℚ` or `ℝ`, fallible operations return `Except`,
stateful classes become explicit state-passing step functions.
-/

namespace BrainSeg

/-- Python runtime faults relevant to the embedded code. -/
inductive PyErr where
  | zeroDivisionError
  | assertionError
  | osError
  deriving DecidableEq, Repr

/-- Python division `a / b`: raises `ZeroDivisionError` when the divisor
is zero, otherwise yields the quotient. -/
def pydiv (a b : ℚ) : Except PyErr ℚ :=
  if b = 0 then .error .zeroDivisionError else .ok (a / b)

/-! ## EarlyStopping (src/models/utils.py lines 8-37) -/

/-- State of the simple early-stopping monitor `EarlyStopping`:
fields are exactly the attributes set in `__init__`. -/
structure EarlyStopping where
  patience : ℕ
  min_delta : ℚ
  counter : ℕ
  best_loss : Option ℚ
  early_stop : Bool
  deriving DecidableEq, Repr

/-- `EarlyStopping.__init__(patience, min_delta)`: counter 0, no best loss,
not stopped. -/
def EarlyStopping.init (patience : ℕ) (min_delta : ℚ) : EarlyStopping :=
  { patience := patience, min_delta := min_delta, counter := 0,
    best_loss := none, early_stop := false }

/-- `EarlyStopping.__call__(val_loss)`: first call records the baseline;
then `best_loss - val_loss > min_delta` updates the best,
`best_loss - val_loss < min_delta` increments the counter and stops once
`counter >= patience`; when the difference equals `min_delta` exactly no
branch fires and the state is returned unchanged. -/
def EarlyStopping.call (s : EarlyStopping) (val_loss : ℚ) : EarlyStopping :=
  match s.best_loss with
  | none => { s with best_loss := some val_loss }
  | some best =>
    if best - val_loss > s.min_delta then
      { s with best_loss := some val_loss }
    else if best - val_loss < s.min_delta then
      let counter := s.counter + 1
      if counter ≥ s.patience then
        { s with counter := counter, early_stop := true }
      else
        { s with counter := counter }
    else
      s

/-- Feeding a sequence of losses through successive `__call__`s. -/
def EarlyStopping.run (s : EarlyStopping) (losses : List ℚ) : EarlyStopping :=
  losses.foldl EarlyStopping.call s

/-! ## EarlyStoppingUnlearning (src/models/utils.py lines 158-195) -/

/-- State of the checkpointing early-stopping monitor
`EarlyStoppingUnlearning` (the `verbose` flag and `val_loss_min` only
affect logging and are omitted). -/
structure EarlyStoppingUnlearning where
  patience : ℕ
  counter : ℕ
  best_score : Option ℚ
  early_stop : Bool
  deriving DecidableEq, Repr

/-- `EarlyStoppingUnlearning.__init__(patience)`. -/
def EarlyStoppingUnlearning.init (patience : ℕ) : EarlyStoppingUnlearning :=
  { patience := patience, counter := 0, best_score := none,
    early_stop := false }

/-- `EarlyStoppingUnlearning.__call__(val_loss, ...)`: score is `-val_loss`;
first call sets the best score and checkpoints; a strictly worse score
increments the counter (stopping once it reaches `patience`) with no
checkpoint; otherwise the best score is updated, a checkpoint is saved and
the counter resets to 0.  The returned `Bool` records whether
`save_checkpoint` was invoked during the call. -/
def EarlyStoppingUnlearning.call (s : EarlyStoppingUnlearning)
    (val_loss : ℚ) : EarlyStoppingUnlearning × Bool :=
  let score := -val_loss
  match s.best_score with
  | none => ({ s with best_score := some score }, true)
  | some best =>
    if score < best then
      let counter := s.counter + 1
      if counter ≥ s.patience then
        ({ s with counter := counter, early_stop := true }, false)
      else
        ({ s with counter := counter }, false)
    else
      ({ s with best_score := some score, counter := 0 }, true)

/-- Feeding a sequence of validation losses through successive calls,
discarding the checkpoint events. -/
def EarlyStoppingUnlearning.run (s : EarlyStoppingUnlearning)
    (losses : List ℚ) : EarlyStoppingUnlearning :=
  losses.foldl (fun st l => (st.call l).1) s

/-- The three named components of the checkpoint bundle handed to
`EarlyStoppingUnlearning.save_checkpoint` as `[encoder, regressor,
domain_predictor]`. -/
inductive Component where
  | encoder
  | regressor
  | domain_predictor
  deriving DecidableEq, Repr

/-- `EarlyStoppingUnlearning.save_checkpoint` (src/models/utils.py lines
184-195), embedded over an abstract persistence primitive `save` (the
`torch.save(...state_dict(), PATH)` call for one component, which may
raise).  The three saves run sequentially, each guarded by the truthiness
of its path; the method has no exception handler, so a raised error
propagates immediately.  The result records, in order, the components
whose save was actually attempted, and the propagated error if any. -/
def save_checkpoint (path_given : Component → Bool)
    (save : Component → Except PyErr Unit) :
    List Component × Option PyErr :=
  let step := fun (acc : List Component × Option PyErr) (c : Component) =>
    match acc.2 with
    | some e => (acc.1, some e)
    | none =>
      if path_given c then
        match save c with
        | .ok _ => (acc.1 ++ [c], none)
        | .error e => (acc.1 ++ [c], some e)
      else (acc.1, none)
  [Component.encoder, Component.regressor, Component.domain_predictor].foldl
    step ([], none)

/-- `dice_score(pred, target)` (src/models/utils.py lines 70-79), with the
already-flattened tensors embedded as lists of rationals: negative of
`(2 * intersection + eps) / (union + eps)` with `eps = 1e-4`. -/
def dice_score (pred target : List ℚ) : ℚ :=
  let eps : ℚ := 1 / 10000
  let iflat := pred
  let tflat := target
  let intersection := (List.zipWith (fun a b => a * b) iflat tflat).sum
  let union := iflat.sum + tflat.sum
  let dice := (2 * intersection + eps) / (union + eps);
  (-dice)

/-- The loss-accumulation skeleton of `validation` (src/models/utils.py
lines 82-155): for each batch of the stream the computed dice loss is
added to `val_loss` and `num_steps` is incremented by 1; after the stream
ends, `val_loss / num_steps` is computed with Python division semantics
(raising `ZeroDivisionError` when `num_steps = 0`) and returned.  The
per-batch dice losses, which depend on the external model and GPU tensors,
form the input stream. -/
def validation (batch_losses : List ℚ) : Except PyErr ℚ :=
  let val_loss := batch_losses.foldl (fun acc l => acc + l) 0
  let num_steps := batch_losses.length
  pydiv val_loss num_steps

/-- The value returned by `cosine_rampdown(current, rampdown_length)`
(src/models/utils.py lines 40-43) when its assert passes:
`0.5 * (cos(pi * current / rampdown_length) + 1)`. -/
noncomputable def cosine_rampdown_val (current rampdown_length : ℝ) : ℝ :=
  0.5 * (Real.cos (Real.pi * current / rampdown_length) + 1)

/-- `cosine_rampdown(current, rampdown_length)`: the Python `assert
0 <= current <= rampdown_length` raises `AssertionError` outside that
range; in range the cosine formula is returned. -/
noncomputable def cosine_rampdown (current rampdown_length : ℝ) :
    Except PyErr ℝ :=
  if 0 ≤ current ∧ current ≤ rampdown_length then
    Except.ok (cosine_rampdown_val current rampdown_length)
  else
    Except.error PyErr.assertionError

/-- `confusion_loss.forward(x, target)` (src/models/utils.py lines
215-226): elementwise `log`, summed along the class dimension (`dim=1`),
divided by the class count `x.size()[1]`, summed across samples
(`dim=0`), multiplied by `-1`.  `target` is accepted but unused. -/
noncomputable def confusion_loss_forward (x : List (List ℝ))
    (target : List (List ℝ)) : ℝ :=
  let num_classes : ℝ := ((x.headD []).length : ℝ)
  let log_sum := x.map (fun row => (row.map Real.log).sum)
  let normalised_log_sum := log_sum.map (fun v => v / num_classes)
  (normalised_log_sum.sum) * (-1)

/-! ## Patch extraction (src/data/utils.py lines 34-50) -/

/-- A 2-D array of scalars with explicit shape. -/
structure Grid where
  rows : ℕ
  cols : ℕ
  val : ℕ → ℕ → ℚ

/-- The patch of `g` with shape `psize` whose top-left corner sits at
`pos`. -/
def crop (g : Grid) (psize : ℕ × ℕ) (pos : ℕ × ℕ) : Grid :=
  { rows := psize.1, cols := psize.2,
    val := fun r c => g.val (pos.1 + r) (pos.2 + c) }

/-- Models sklearn's `extract_patches_2d(image, patch_size, max_patches,
random_state)`, the external collaborator called by `patch_data`: a
deterministic sampler draws patch corner positions from the image shape,
patch size, patch count and seed, and the image is cropped at each drawn
position.  The sampler is kept abstract as the parameter `sample`; the
only fact used is that the drawn positions are a function of exactly
those four arguments. -/
def extract_patches_2d (sample : ℕ × ℕ → ℕ × ℕ → ℕ → ℕ → List (ℕ × ℕ))
    (img : Grid) (psize : ℕ × ℕ) (max_patches : ℕ) (random_state : ℕ) :
    List Grid :=
  (sample (img.rows, img.cols) psize max_patches random_state).map
    (crop img psize)

/-- `patch_data(dataset, patch_size, max_patches)` (src/data/utils.py
lines 34-50): one `random_value` seeds the whole run; for each sample the
image patches and the mask patches are extracted with that same
`random_state`, and the slice `[i*max_patches : (i+1)*max_patches]` of
each preallocated output array receives sample `i`'s patches.  The
slice-by-slice filling of the `(n*max_patches, p0, p1)` arrays is
embedded as concatenation of the per-sample patch lists. -/
def patch_data (sample : ℕ × ℕ → ℕ × ℕ → ℕ → ℕ → List (ℕ × ℕ))
    (dataset : List (Grid × Grid)) (psize : ℕ × ℕ) (max_patches : ℕ)
    (random_value : ℕ) : List Grid × List Grid :=
  (dataset.flatMap
     (fun d => extract_patches_2d sample d.1 psize max_patches random_value),
   dataset.flatMap
     (fun d => extract_patches_2d sample d.2 psize max_patches random_value))

/-! ## Theorems about the early-stopping monitors -/

/-- A single `EarlyStopping.__call__` never clears `early_stop`: every
branch either leaves the flag alone or sets it to true. -/
theorem EarlyStopping.call_preserves_stop (s : EarlyStopping) (l : ℚ)
    (h : s.early_stop = true) : (s.call l).early_stop = true := by
  unfold EarlyStopping.call
  cases hb : s.best_loss with
  | none => simpa using h
  | some best =>
    by_cases h1 : best - l > s.min_delta
    · simpa [h1] using h
    · by_cases h2 : best - l < s.min_delta
      · by_cases h3 : s.counter + 1 ≥ s.patience <;> simp [h1, h2, h3, h]
      · simpa [h1, h2] using h

/-- `EarlyStopping.run` never clears `early_stop`. -/
theorem EarlyStopping.run_preserves_stop (s : EarlyStopping) (ls : List ℚ)
    (h : s.early_stop = true) : (s.run ls).early_stop = true := by
  induction ls generalizing s with
  | nil => exact h
  | cons a t ih => exact ih (s.call a) (s.call_preserves_stop a h)

/-- Running a concatenated loss sequence is running the pieces in turn. -/
theorem EarlyStopping.run_append (s : EarlyStopping) (a b : List ℚ) :
    s.run (a ++ b) = (s.run a).run b := by
  simp [EarlyStopping.run, List.foldl_append]

/-- A single `EarlyStoppingUnlearning.__call__` never clears `early_stop`. -/
theorem EarlyStoppingUnlearning.call_keeps_stop
    (s : EarlyStoppingUnlearning) (l : ℚ) (h : s.early_stop = true) :
    (s.call l).1.early_stop = true := by
  unfold EarlyStoppingUnlearning.call
  cases hb : s.best_score with
  | none => simpa using h
  | some best =>
    by_cases h1 : -l < best
    · by_cases h3 : s.counter + 1 ≥ s.patience <;> simp [h1, h3, h]
    · simpa [h1] using h

/-- `EarlyStoppingUnlearning.run` never clears `early_stop`. -/
theorem EarlyStoppingUnlearning.run_keeps_stop
    (s : EarlyStoppingUnlearning) (ls : List ℚ) (h : s.early_stop = true) :
    (s.run ls).early_stop = true := by
  induction ls generalizing s with
  | nil => exact h
  | cons a t ih => exact ih (s.call a).1 (s.call_keeps_stop a h)

/-- Running a concatenated loss sequence is running the pieces in turn. -/
theorem EarlyStoppingUnlearning.run_split (s : EarlyStoppingUnlearning)
    (a b : List ℚ) : s.run (a ++ b) = (s.run a).run b := by
  simp [EarlyStoppingUnlearning.run, List.foldl_append]

/-- C9: for both early-stopping monitors, in every sequence of update calls
from the freshly constructed state, once `early_stop` becomes true it
remains true after every subsequent update call. -/
theorem early_stop_latches (p : ℕ) (d : ℚ) (q : ℕ)
    (ls1 more1 ls2 more2 : List ℚ)
    (h1 : ((EarlyStopping.init p d).run ls1).early_stop = true)
    (h2 : ((EarlyStoppingUnlearning.init q).run ls2).early_stop = true) :
    ((EarlyStopping.init p d).run (ls1 ++ more1)).early_stop = true ∧
    ((EarlyStoppingUnlearning.init q).run (ls2 ++ more2)).early_stop = true := by
  constructor
  · rw [EarlyStopping.run_append]
    exact EarlyStopping.run_preserves_stop _ more1 h1
  · rw [EarlyStoppingUnlearning.run_split]
    exact EarlyStoppingUnlearning.run_keeps_stop _ more2 h2

/-- Witness for C9: with `patience = 1` both monitors stop after losses
`[1, 2]`, and remain stopped after the further loss `5`. -/
theorem early_stop_latches_witness :
    (((EarlyStopping.init 1 0).run [1, 2]).early_stop = true) ∧
    (((EarlyStoppingUnlearning.init 1).run [1, 2]).early_stop = true) ∧
    (((EarlyStopping.init 1 0).run ([1, 2] ++ [5])).early_stop = true) ∧
    (((EarlyStoppingUnlearning.init 1).run ([1, 2] ++ [5])).early_stop = true) :=
  have hs : ((EarlyStopping.init 1 0).run [1, 2]).early_stop = true := by
    simp [EarlyStopping.run, EarlyStopping.call, EarlyStopping.init, List.foldl]
  have hu : ((EarlyStoppingUnlearning.init 1).run [1, 2]).early_stop = true := by
    simp [EarlyStoppingUnlearning.run, EarlyStoppingUnlearning.call,
      EarlyStoppingUnlearning.init, List.foldl]
  ⟨hs, hu,
   (early_stop_latches 1 0 1 [1, 2] [5] [1, 2] [5] hs hu).1,
   (early_stop_latches 1 0 1 [1, 2] [5] [1, 2] [5] hs hu).2⟩

/-- C1 counterexample: with `patience = 3`, `min_delta = 0`, the flat loss
sequence leaves `early_stop` false after the 4th call (the difference
`best_loss - val_loss = 0` equals `min_delta`, so neither branch of
`__call__` ever fires after the baseline). -/
theorem flat_sequence_not_stopped_after_four :
    ((EarlyStopping.init 3 0).run [1, 1, 1, 1]).early_stop = false := by
  simp [EarlyStopping.run, EarlyStopping.call, EarlyStopping.init, List.foldl]

/-- C1 amended: with `patience = 3`, `min_delta = 0`, feeding the flat
sequence `[1, 1, 1, 1, 1, 1]` never sets `early_stop`; after the first call
records the baseline, every later call leaves the whole state unchanged. -/
theorem flat_sequence_state_frozen :
    (EarlyStopping.init 3 0).run [1, 1, 1, 1, 1, 1] =
      { patience := 3, min_delta := 0, counter := 0,
        best_loss := some 1, early_stop := false } := by
  simp [EarlyStopping.run, EarlyStopping.call, EarlyStopping.init, List.foldl]

/-- C5: when `best_loss` is set and `best_loss - current_loss` equals
`min_delta` exactly, `EarlyStopping.__call__` leaves the entire state
unchanged. -/
theorem call_frozen_at_exact_min_delta (s : EarlyStopping) (b l : ℚ)
    (hb : s.best_loss = some b) (h : b - l = s.min_delta) :
    s.call l = s := by
  have h1 : ¬ (b - l > s.min_delta) := by rw [h]; exact lt_irrefl _
  have h2 : ¬ (b - l < s.min_delta) := by rw [h]; exact lt_irrefl _
  simp [EarlyStopping.call, hb, h1, h2]

/-- Witness for C5: best loss 3, current loss 2, `min_delta = 1`. -/
theorem call_frozen_at_exact_min_delta_witness :
    (({ patience := 5, min_delta := 1, counter := 0, best_loss := some 3,
        early_stop := false } : EarlyStopping).best_loss = some 3) ∧
    ((3 : ℚ) - 2 = (1 : ℚ)) ∧
    (({ patience := 5, min_delta := 1, counter := 0, best_loss := some 3,
        early_stop := false } : EarlyStopping).call 2 =
      { patience := 5, min_delta := 1, counter := 0, best_loss := some 3,
        early_stop := false }) :=
  ⟨rfl, by norm_num, call_frozen_at_exact_min_delta _ 3 2 rfl (by norm_num)⟩

/-- C8: after the first update of `EarlyStoppingUnlearning` (so
`best_score` is set), a strictly worse score increments the counter,
checkpoints nothing, and sets `early_stop` once the counter reaches
`patience`; a score at least the best updates `best_score`, checkpoints,
and resets the counter to 0. -/
theorem unlearning_call_branches (s : EarlyStoppingUnlearning) (l b : ℚ)
    (hb : s.best_score = some b) :
    ((-l < b) →
      (s.call l).1.counter = s.counter + 1 ∧ (s.call l).2 = false ∧
      (s.counter + 1 ≥ s.patience → (s.call l).1.early_stop = true)) ∧
    ((b ≤ -l) →
      (s.call l).1.best_score = some (-l) ∧ (s.call l).2 = true ∧
      (s.call l).1.counter = 0) := by
  unfold EarlyStoppingUnlearning.call
  rw [hb]
  constructor
  · intro hworse
    by_cases h3 : s.counter + 1 ≥ s.patience <;>
      simp [hworse, h3]
  · intro himp
    have hns : ¬ (-l < b) := not_lt.mpr himp
    simp [hns]

/-- Witness for C8: best score -1; loss 2 (score -2) is the worse branch,
the statement also covers the improving branch vacuously-free via its own
hypothesis. -/
theorem unlearning_call_branches_witness :
    (({ patience := 2, counter := 0, best_score := some (-1),
        early_stop := false } : EarlyStoppingUnlearning).best_score =
          some (-1)) ∧
    (((-(2 : ℚ) < -1) →
      (({ patience := 2, counter := 0, best_score := some (-1),
          early_stop := false } : EarlyStoppingUnlearning).call 2).1.counter =
        0 + 1 ∧
      (({ patience := 2, counter := 0, best_score := some (-1),
          early_stop := false } : EarlyStoppingUnlearning).call 2).2 = false ∧
      (0 + 1 ≥ 2 →
        (({ patience := 2, counter := 0, best_score := some (-1),
            early_stop := false } : EarlyStoppingUnlearning).call
              2).1.early_stop = true)) ∧
    (((-1 : ℚ) ≤ -2) →
      (({ patience := 2, counter := 0, best_score := some (-1),
          early_stop := false } : EarlyStoppingUnlearning).call
            2).1.best_score = some (-2) ∧
      (({ patience := 2, counter := 0, best_score := some (-1),
          early_stop := false } : EarlyStoppingUnlearning).call 2).2 = true ∧
      (({ patience := 2, counter := 0, best_score := some (-1),
          early_stop := false } : EarlyStoppingUnlearning).call
            2).1.counter = 0)) :=
  ⟨rfl, unlearning_call_branches _ 2 (-1) rfl⟩

/-! ## Checkpoint persistence, validation averaging, dice score -/

/-- C3 counterexample: with all three paths given and the encoder save
raising, only the encoder save is attempted — the regressor and domain
predictor saves are skipped, so the persistence attempts are not
independent. -/
theorem save_checkpoint_not_independent :
    (save_checkpoint (fun _ => true)
        (fun c => match c with
          | Component.encoder => Except.error PyErr.osError
          | _ => Except.ok ())).1 = [Component.encoder] ∧
    Component.regressor ∉ (save_checkpoint (fun _ => true)
        (fun c => match c with
          | Component.encoder => Except.error PyErr.osError
          | _ => Except.ok ())).1 ∧
    Component.domain_predictor ∉ (save_checkpoint (fun _ => true)
        (fun c => match c with
          | Component.encoder => Except.error PyErr.osError
          | _ => Except.ok ())).1 := by
  decide

/-- C3 amended: a failure while persisting one bundle component aborts the
checkpoint event — with all paths given, when the encoder save raises, no
later component's save is attempted and the error propagates. -/
theorem save_checkpoint_aborts_on_failure
    (save : Component → Except PyErr Unit) (e : PyErr)
    (h : save Component.encoder = Except.error e) :
    save_checkpoint (fun _ => true) save = ([Component.encoder], some e) := by
  simp [save_checkpoint, List.foldl, h]

/-- Witness for the amended C3 at a concrete save primitive that fails on
the encoder with an OS error. -/
theorem save_checkpoint_aborts_on_failure_witness :
    ((fun c => if c = Component.encoder then
        (Except.error PyErr.osError : Except PyErr Unit) else Except.ok ())
      Component.encoder = Except.error PyErr.osError) ∧
    save_checkpoint (fun _ => true)
      (fun c => if c = Component.encoder then
        (Except.error PyErr.osError : Except PyErr Unit) else Except.ok ()) =
      ([Component.encoder], some PyErr.osError) :=
  ⟨rfl, save_checkpoint_aborts_on_failure _ PyErr.osError rfl⟩

/-- C4: averaging the validation loss over an empty batch stream fails
with a `ZeroDivisionError` fault, and over every stream with at least one
batch it returns the accumulated loss divided by the number of batches. -/
theorem validation_avg_guarded (ls : List ℚ) (h : ls ≠ []) :
    validation [] = Except.error PyErr.zeroDivisionError ∧
    validation ls = Except.ok (ls.sum / ls.length) := by
  constructor
  · simp [validation, pydiv]
  · have hlen : (ls.length : ℚ) ≠ 0 := by
      simpa using h
    have hsum : ls.foldl (fun acc l => acc + l) 0 = ls.sum := by
      induction ls with
      | nil => rfl
      | cons a t _ =>
        simp [List.sum_eq_foldl]
    simp [validation, pydiv, hlen, hsum]

/-- Witness for C4 at the two-batch stream `[2, 4]`. -/
theorem validation_avg_guarded_witness :
    (([2, 4] : List ℚ) ≠ []) ∧
    (validation [] = Except.error PyErr.zeroDivisionError ∧
     validation [2, 4] =
       Except.ok (([2, 4] : List ℚ).sum / (([2, 4] : List ℚ).length : ℚ))) :=
  ⟨by simp, validation_avg_guarded [2, 4] (by simp)⟩

/-- Elementwise product of two equal all-ones lists is all ones. -/
theorem zipWith_mul_replicate_one (n : ℕ) :
    List.zipWith (fun a b : ℚ => a * b)
      (List.replicate n 1) (List.replicate n 1) = List.replicate n 1 := by
  induction n with
  | zero => rfl
  | succ k ih => simp [List.replicate_succ, ih]

/-- C7: `dice_score` returns `-(2*sum(pred*target) + eps) / (sum(pred) +
sum(target) + eps)` with `eps = 1e-4`, and on any non-empty all-ones input
paired with itself it returns exactly `-1`, hence `-1` within `eps`. -/
theorem dice_score_spec (pred target : List ℚ) (n : ℕ) (hn : 0 < n) :
    dice_score pred target =
      -((2 * (List.zipWith (fun a b => a * b) pred target).sum + 1 / 10000) /
        (pred.sum + target.sum + 1 / 10000)) ∧
    dice_score (List.replicate n 1) (List.replicate n 1) = -1 ∧
    |dice_score (List.replicate n 1) (List.replicate n 1) - (-1)| ≤
      1 / 10000 := by
  have hform : ∀ p t : List ℚ, dice_score p t =
      -((2 * (List.zipWith (fun a b => a * b) p t).sum + 1 / 10000) /
        (p.sum + t.sum + 1 / 10000)) := fun p t => by
    simp [dice_score]
  have hones : dice_score (List.replicate n 1) (List.replicate n 1) = -1 := by
    rw [hform, zipWith_mul_replicate_one]
    have hsum : (List.replicate n (1 : ℚ)).sum = (n : ℚ) := by
      simp [List.sum_replicate]
    rw [hsum]
    have hne : (n : ℚ) + (n : ℚ) + 1 / 10000 ≠ 0 := by positivity
    rw [show (2 * (n : ℚ) + 1 / 10000) = ((n : ℚ) + (n : ℚ) + 1 / 10000) by
      ring]
    rw [div_self hne]
  refine ⟨hform pred target, hones, ?_⟩
  rw [hones]
  norm_num

/-- Witness for C7 at `pred = [1, 2]`, `target = [3, 4]`, `n = 3`. -/
theorem dice_score_spec_witness :
    0 < 3 ∧
    (dice_score [1, 2] [3, 4] =
      -((2 * (List.zipWith (fun a b => a * b)
          ([1, 2] : List ℚ) ([3, 4] : List ℚ)).sum + 1 / 10000) /
        (([1, 2] : List ℚ).sum + ([3, 4] : List ℚ).sum + 1 / 10000)) ∧
     dice_score (List.replicate 3 1) (List.replicate 3 1) = -1 ∧
     |dice_score (List.replicate 3 1) (List.replicate 3 1) - (-1)| ≤
       1 / 10000) :=
  ⟨by decide, dice_score_spec [1, 2] [3, 4] 3 (by decide)⟩

/-! ## Schedulers and confusion loss -/

/-- C6: in range, `cosine_rampdown` returns `0.5 * (cos(pi*current/L)+1)`,
is monotonically non-increasing in `current`, and takes value 1 at `0` and
0 at `L`. -/
theorem cosine_rampdown_spec (L c c₁ c₂ : ℝ) (hL : 0 < L) (hc0 : 0 ≤ c)
    (hcL : c ≤ L) (h10 : 0 ≤ c₁) (h12 : c₁ ≤ c₂) (h2L : c₂ ≤ L) :
    cosine_rampdown c L =
      Except.ok (0.5 * (Real.cos (Real.pi * c / L) + 1)) ∧
    cosine_rampdown_val c₂ L ≤ cosine_rampdown_val c₁ L ∧
    cosine_rampdown_val 0 L = 1 ∧
    cosine_rampdown_val L L = 0 := by
  refine ⟨?_, ?_, ?_, ?_⟩
  · simp [cosine_rampdown, cosine_rampdown_val, hc0, hcL]
  · have hx0 : 0 ≤ Real.pi * c₁ / L :=
      div_nonneg (mul_nonneg Real.pi_pos.le h10) hL.le
    have hyπ : Real.pi * c₂ / L ≤ Real.pi := by
      rw [div_le_iff hL]
      exact mul_le_mul_of_nonneg_left h2L Real.pi_pos.le
    have hxy : Real.pi * c₁ / L ≤ Real.pi * c₂ / L :=
      div_le_div_of_nonneg_right
        (mul_le_mul_of_nonneg_left h12 Real.pi_pos.le) hL.le
    have hcos := Real.cos_le_cos_of_nonneg_of_le_pi hx0 hyπ hxy
    unfold cosine_rampdown_val
    linarith
  · norm_num [cosine_rampdown_val]
  · rw [cosine_rampdown_val, mul_div_assoc, div_self hL.ne', mul_one,
      Real.cos_pi]
    norm_num

/-- Witness for C6 at `L = 1`, `c = 0`, `c₁ = 0`, `c₂ = 1`. -/
theorem cosine_rampdown_spec_witness :
    ((0 : ℝ) < 1 ∧ (0 : ℝ) ≤ 0 ∧ (0 : ℝ) ≤ 1) ∧
    (cosine_rampdown 0 1 =
       Except.ok (0.5 * (Real.cos (Real.pi * 0 / 1) + 1)) ∧
     cosine_rampdown_val 1 1 ≤ cosine_rampdown_val 0 1 ∧
     cosine_rampdown_val 0 1 = 1 ∧
     cosine_rampdown_val 1 1 = 0) :=
  ⟨⟨by norm_num, le_refl 0, by norm_num⟩,
   cosine_rampdown_spec 1 0 0 1 (by norm_num) (le_refl 0) (by norm_num)
     (le_refl 0) (by norm_num) (by norm_num)⟩

/-- The per-class mean log of the confident distribution is smaller than
that of the uniform one: `log(99/100) + log(1/100) < log(1/2) + log(1/2)`. -/
theorem log_sum_confident_lt_uniform :
    Real.log ((99 : ℝ) / 100) + Real.log ((1 : ℝ) / 100) <
      Real.log ((1 : ℝ) / 2) + Real.log ((1 : ℝ) / 2) := by
  have h1 : Real.log ((99 : ℝ) / 100) + Real.log ((1 : ℝ) / 100) =
      Real.log ((99 : ℝ) / 10000) := by
    rw [← Real.log_mul (by norm_num) (by norm_num)]
    norm_num
  have h2 : Real.log ((1 : ℝ) / 2) + Real.log ((1 : ℝ) / 2) =
      Real.log ((1 : ℝ) / 4) := by
    rw [← Real.log_mul (by norm_num) (by norm_num)]
    norm_num
  have h3 : Real.log ((99 : ℝ) / 10000) < Real.log ((1 : ℝ) / 4) :=
    Real.log_lt_log (by norm_num) (by norm_num)
  linarith

/-- C2 counterexample: at the concrete target `[]`, the confusion loss of
the uniform input `[[0.5, 0.5]]` is strictly smaller — not larger — than
that of the confident input `[[0.99, 0.01]]`. -/
theorem confusion_loss_uniform_not_larger :
    confusion_loss_forward [[1 / 2, 1 / 2]] [] <
      confusion_loss_forward [[99 / 100, 1 / 100]] [] := by
  have key := log_sum_confident_lt_uniform
  simp only [confusion_loss_forward, List.headD, List.length_cons,
    List.length_nil, List.map_cons, List.map_nil, List.sum_cons,
    List.sum_nil, Nat.cast_ofNat]
  linarith

/-- C2 amended: for any target arguments, the confusion loss of the
uniform input `[[0.5, 0.5]]` is strictly smaller than that of the
confident input `[[0.99, 0.01]]` (the forward pass negates the mean log,
so uniformity minimises it). -/
theorem confusion_loss_uniform_smaller (t₁ t₂ : List (List ℝ)) :
    confusion_loss_forward [[1 / 2, 1 / 2]] t₁ <
      confusion_loss_forward [[99 / 100, 1 / 100]] t₂ := by
  have key := log_sum_confident_lt_uniform
  simp only [confusion_loss_forward, List.headD, List.length_cons,
    List.length_nil, List.map_cons, List.map_nil, List.sum_cons,
    List.sum_nil, Nat.cast_ofNat]
  linarith

/-! ## Patch extraction -/

/-- Concatenating per-sample lists of constant length `m`: total length is
`n * m`. -/
theorem flatMap_length_const {α β : Type} (f : α → List β) (m : ℕ) :
    ∀ ds : List α, (∀ d ∈ ds, (f d).length = m) →
      (ds.flatMap f).length = ds.length * m := by
  intro ds
  induction ds with
  | nil => intro _; simp
  | cons a t ih =>
    intro h
    have ha : (f a).length = m := h a (by simp)
    have ht := ih (fun d hd => h d (by simp [hd]))
    rw [List.flatMap_cons, List.length_append, ha, ht, List.length_cons]
    ring

/-- Rows `i*m` through `(i+1)*m - 1` of a concatenation of per-sample
lists of constant length `m` are exactly sample `i`'s list. -/
theorem flatMap_block {α β : Type} (f : α → List β) (m : ℕ) :
    ∀ ds : List α, (∀ d ∈ ds, (f d).length = m) →
      ∀ i, ∀ hi : i < ds.length,
        ((ds.flatMap f).drop (i * m)).take m = f (ds.get ⟨i, hi⟩) := by
  intro ds
  induction ds with
  | nil =>
    intro _ i hi
    exact absurd hi (by simp)
  | cons a t ih =>
    intro h i hi
    have ha : (f a).length = m := h a (by simp)
    cases i with
    | zero =>
      rw [List.flatMap_cons, Nat.zero_mul, List.drop_zero, ← ha,
        List.take_left]
      rfl
    | succ k =>
      have hk : k < t.length := by simpa using hi
      have ht := ih (fun d hd => h d (by simp [hd])) k hk
      rw [List.flatMap_cons,
        show (k + 1) * m = (f a).length + k * m by rw [ha]; ring,
        List.drop_append]
      exact ht

/-- C10: when the position sampler draws `max_patches` positions (the
sklearn behaviour for an integer `max_patches` within range) and each
sample's image and mask share their spatial shape, `patch_data` returns
image- and mask-patch lists of length `n * max_patches` whose entries all
have shape `patch_size`, and rows `i*m .. (i+1)*m - 1` of the two lists
are the patches of sample `i`, cropped at the same drawn positions for
image and mask. -/
theorem patch_data_spec (sample : ℕ × ℕ → ℕ × ℕ → ℕ → ℕ → List (ℕ × ℕ))
    (ds : List (Grid × Grid)) (psize : ℕ × ℕ) (m seed : ℕ)
    (hm : ∀ sh : ℕ × ℕ, (sample sh psize m seed).length = m)
    (hshape : ∀ d ∈ ds, d.1.rows = d.2.rows ∧ d.1.cols = d.2.cols) :
    (patch_data sample ds psize m seed).1.length = ds.length * m ∧
    (patch_data sample ds psize m seed).2.length = ds.length * m ∧
    (∀ g ∈ (patch_data sample ds psize m seed).1,
        g.rows = psize.1 ∧ g.cols = psize.2) ∧
    (∀ g ∈ (patch_data sample ds psize m seed).2,
        g.rows = psize.1 ∧ g.cols = psize.2) ∧
    (∀ i, ∀ hi : i < ds.length,
      ((patch_data sample ds psize m seed).1.drop (i * m)).take m =
        (sample ((ds.get ⟨i, hi⟩).1.rows, (ds.get ⟨i, hi⟩).1.cols) psize m
          seed).map (crop (ds.get ⟨i, hi⟩).1 psize) ∧
      ((patch_data sample ds psize m seed).2.drop (i * m)).take m =
        (sample ((ds.get ⟨i, hi⟩).1.rows, (ds.get ⟨i, hi⟩).1.cols) psize m
          seed).map (crop (ds.get ⟨i, hi⟩).2 psize)) := by
  have hlen1 : ∀ d ∈ ds,
      (extract_patches_2d sample d.1 psize m seed).length = m := by
    intro d _
    simp [extract_patches_2d, hm]
  have hlen2 : ∀ d ∈ ds,
      (extract_patches_2d sample d.2 psize m seed).length = m := by
    intro d _
    simp [extract_patches_2d, hm]
  refine ⟨?_, ?_, ?_, ?_, ?_⟩
  · exact flatMap_length_const _ m ds hlen1
  · exact flatMap_length_const _ m ds hlen2
  · intro g hg
    simp only [patch_data, extract_patches_2d, List.mem_flatMap,
      List.mem_map] at hg
    obtain ⟨d, _, p, _, rfl⟩ := hg
    exact ⟨rfl, rfl⟩
  · intro g hg
    simp only [patch_data, extract_patches_2d, List.mem_flatMap,
      List.mem_map] at hg
    obtain ⟨d, _, p, _, rfl⟩ := hg
    exact ⟨rfl, rfl⟩
  · intro i hi
    constructor
    · exact flatMap_block _ m ds hlen1 i hi
    · have hd := hshape (ds.get ⟨i, hi⟩) (ds.get_mem i hi)
      rw [hd.1, hd.2]
      exact flatMap_block _ m ds hlen2 i hi

/-- Witness for C10: one sample whose image and mask are distinct 3×4
grids, 2×2 patches, two patches per sample, a sampler that lays positions
out along a diagonal shifted by the seed. -/
theorem patch_data_spec_witness :
    (∀ sh : ℕ × ℕ,
      ((fun (shape : ℕ × ℕ) (_ : ℕ × ℕ) (mm sd : ℕ) =>
          (List.range mm).map (fun k => (k + sd, shape.2)))
        sh (2, 2) 2 5).length = 2) ∧
    (∀ d ∈ [((⟨3, 4, fun r c => (r : ℚ) + (c : ℚ)⟩ : Grid),
             (⟨3, 4, fun r c => (r : ℚ) * (c : ℚ)⟩ : Grid))],
      d.1.rows = d.2.rows ∧ d.1.cols = d.2.cols) ∧
    ((patch_data
        (fun (shape : ℕ × ℕ) (_ : ℕ × ℕ) (mm sd : ℕ) =>
          (List.range mm).map (fun k => (k + sd, shape.2)))
        [((⟨3, 4, fun r c => (r : ℚ) + (c : ℚ)⟩ : Grid),
          (⟨3, 4, fun r c => (r : ℚ) * (c : ℚ)⟩ : Grid))]
        (2, 2) 2 5).1.length = 1 * 2 ∧
     (patch_data
        (fun (shape : ℕ × ℕ) (_ : ℕ × ℕ) (mm sd : ℕ) =>
          (List.range mm).map (fun k => (k + sd, shape.2)))
        [((⟨3, 4, fun r c => (r : ℚ) + (c : ℚ)⟩ : Grid),
          (⟨3, 4, fun r c => (r : ℚ) * (c : ℚ)⟩ : Grid))]
        (2, 2) 2 5).2.length = 1 * 2 ∧
     (∀ g ∈ (patch_data
        (fun (shape : ℕ × ℕ) (_ : ℕ × ℕ) (mm sd : ℕ) =>
          (List.range mm).map (fun k => (k + sd, shape.2)))
        [((⟨3, 4, fun r c => (r : ℚ) + (c : ℚ)⟩ : Grid),
          (⟨3, 4, fun r c => (r : ℚ) * (c : ℚ)⟩ : Grid))]
        (2, 2) 2 5).1, g.rows = (2, 2).1 ∧ g.cols = (2, 2).2) ∧
     (∀ g ∈ (patch_data
        (fun (shape : ℕ × ℕ) (_ : ℕ × ℕ) (mm sd : ℕ) =>
          (List.range mm).map (fun k => (k + sd, shape.2)))
        [((⟨3, 4, fun r c => (r : ℚ) + (c : ℚ)⟩ : Grid),
          (⟨3, 4, fun r c => (r : ℚ) * (c : ℚ)⟩ : Grid))]
        (2, 2) 2 5).2, g.rows = (2, 2).1 ∧ g.cols = (2, 2).2) ∧
     (∀ i, ∀ hi : i <
        ([((⟨3, 4, fun r c => (r : ℚ) + (c : ℚ)⟩ : Grid),
           (⟨3, 4, fun r c => (r : ℚ) * (c : ℚ)⟩ : Grid))]).length,
       ((patch_data
          (fun (shape : ℕ × ℕ) (_ : ℕ × ℕ) (mm sd : ℕ) =>
            (List.range mm).map (fun k => (k + sd, shape.2)))
          [((⟨3, 4, fun r c => (r : ℚ) + (c : ℚ)⟩ : Grid),
            (⟨3, 4, fun r c => (r : ℚ) * (c : ℚ)⟩ : Grid))]
          (2, 2) 2 5).1.drop (i * 2)).take 2 =
         ((fun (shape : ℕ × ℕ) (_ : ℕ × ℕ) (mm sd : ℕ) =>
            (List.range mm).map (fun k => (k + sd, shape.2)))
          ((([((⟨3, 4, fun r c => (r : ℚ) + (c : ℚ)⟩ : Grid),
               (⟨3, 4, fun r c => (r : ℚ) * (c : ℚ)⟩ : Grid))]).get
                ⟨i, hi⟩).1.rows,
           (([((⟨3, 4, fun r c => (r : ℚ) + (c : ℚ)⟩ : Grid),
               (⟨3, 4, fun r c => (r : ℚ) * (c : ℚ)⟩ : Grid))]).get
                ⟨i, hi⟩).1.cols) (2, 2) 2 5).map
           (crop (([((⟨3, 4, fun r c => (r : ℚ) + (c : ℚ)⟩ : Grid),
               (⟨3, 4, fun r c => (r : ℚ) * (c : ℚ)⟩ : Grid))]).get
                ⟨i, hi⟩).1 (2, 2)) ∧
       ((patch_data
          (fun (shape : ℕ × ℕ) (_ : ℕ × ℕ) (mm sd : ℕ) =>
            (List.range mm).map (fun k => (k + sd, shape.2)))
          [((⟨3, 4, fun r c => (r : ℚ) + (c : ℚ)⟩ : Grid),
            (⟨3, 4, fun r c => (r : ℚ) * (c : ℚ)⟩ : Grid))]
          (2, 2) 2 5).2.drop (i * 2)).take 2 =
         ((fun (shape : ℕ × ℕ) (_ : ℕ × ℕ) (mm sd : ℕ) =>
            (List.range mm).map (fun k => (k + sd, shape.2)))
          ((([((⟨3, 4, fun r c => (r : ℚ) + (c : ℚ)⟩ : Grid),
               (⟨3, 4, fun r c => (r : ℚ) * (c : ℚ)⟩ : Grid))]).get
                ⟨i, hi⟩).1.rows,
           (([((⟨3, 4, fun r c => (r : ℚ) + (c : ℚ)⟩ : Grid),
               (⟨3, 4, fun r c => (r : ℚ) * (c : ℚ)⟩ : Grid))]).get
                ⟨i, hi⟩).1.cols) (2, 2) 2 5).map
           (crop (([((⟨3, 4, fun r c => (r : ℚ) + (c : ℚ)⟩ : Grid),
               (⟨3, 4, fun r c => (r : ℚ) * (c : ℚ)⟩ : Grid))]).get
                ⟨i, hi⟩).2 (2, 2)))) :=
  ⟨fun sh => by simp,
   fun d hd => by
     rw [List.mem_singleton] at hd
     subst hd
     exact ⟨rfl, rfl⟩,
   patch_data_spec
     (fun (shape : ℕ × ℕ) (_ : ℕ × ℕ) (mm sd : ℕ) =>
       (List.range mm).map (fun k => (k + sd, shape.2)))
     [((⟨3, 4, fun r c => (r : ℚ) + (c : ℚ)⟩ : Grid),
       (⟨3, 4, fun r c => (r : ℚ) * (c : ℚ)⟩ : Grid))]
     (2, 2) 2 5
     (fun sh => by simp)
     (fun d hd => by
       rw [List.mem_singleton] at hd
       subst hd
       exact ⟨rfl, rfl⟩)⟩

end BrainSeg
